import Mathlib

/-!
Verification of the torizoncore-builder device-tree-overlay (dto) pipeline.

This file gives a shallow embedding of:
* the overlay apply/remove state machine of `tcbuilder/cli/dto.py`
  (`dto_apply`, `dto_remove_single`, `dto_remove_all`);
* hostname resolution with mDNS fallback of
  `tcbuilder/backend/common.py` (`resolve_hostname`);
* kernel-version discovery of `tcbuilder/backend/ostree.py`
  (`get_kernel_version`).

The backend modules `tcbuilder.backend.dt` and `tcbuilder.backend.dto` are
not part of the sources; the store helpers they provide
(`get_applied_overlays_base_names`, `find_path_to_overlay`) are modelled
from the spec's OverlayStore contract, as documented on each definition.
The state `DtoState` represents a working tree that already satisfies the
unpack / non-WIC precondition checked at the top of every dto command.
-/

namespace TcBuilder

/-! ### POSIX path helpers

The CLI code manipulates paths with `os.path.basename`, `os.path.splitext`,
`os.path.dirname` and `os.path.join`; these are their POSIX semantics on
plain strings. -/

/-- Whether `s` starts with `pre` (char-list semantics of
`str.startswith`). -/
def strStartsWith (s pre : String) : Bool :=
  s.data.take pre.data.length == pre.data

/-- Whether `s` ends with `suf` (char-list semantics of `str.endswith`). -/
def strEndsWith (s suf : String) : Bool :=
  s.data.drop (s.data.length - suf.data.length) == suf.data
    && suf.data.length ≤ s.data.length

/-- Whether `s` contains the character `c` (`c in s` for a one-char
needle). -/
def strContainsChar (s : String) (c : Char) : Bool :=
  s.data.contains c

/-- Index of the last occurrence of `c` in `cs`, if any. -/
def lastIdxOf (cs : List Char) (c : Char) : Option Nat :=
  (List.range cs.length).foldl
    (fun acc i => if cs.getD i ' ' = c then some i else acc) none

/-- `os.path.basename`: everything after the last slash. -/
def posixBasename (p : String) : String :=
  match lastIdxOf p.data '/' with
  | none => p
  | some i => String.mk (p.data.drop (i + 1))

/-- Index of the dot where `os.path.splitext` splits a basename: the last
dot that has at least one non-dot character before it (leading dots do not
start an extension). -/
def lastExtDotIdx (cs : List Char) : Option Nat :=
  (List.range cs.length).foldl
    (fun acc i =>
      if cs.getD i ' ' = '.' ∧ (cs.take i).any (fun c => c ≠ '.') then some i
      else acc)
    none

/-- `os.path.splitext(s)[0]` for a basename (no slashes). -/
def splitextRoot (s : String) : String :=
  match lastExtDotIdx s.data with
  | some i => String.mk (s.data.take i)
  | none => s

/-- `os.path.dirname` with POSIX separator semantics. -/
def pdirname (s : String) : String :=
  match lastIdxOf s.data '/' with
  | none => ""
  | some i =>
    let head := s.data.take (i + 1)
    if head.all (fun c => c = '/') then String.mk head
    else String.mk ((head.reverse.dropWhile (fun c => c = '/')).reverse)

/-- `os.path.join(a, b)` for two components: an absolute second component
discards the first one. -/
def pjoin (a b : String) : String :=
  if strStartsWith b "/" = true then b
  else if a = "" ∨ strEndsWith a "/" = true then a ++ b
  else a ++ "/" ++ b

/-- Whether `sub` occurs as a contiguous substring of `msg`
(used to state that an error message names a hostname or a directory). -/
def strContainsSub (msg sub : String) : Bool :=
  (List.range (msg.data.length + 1)).any
    (fun i => ((msg.data.drop i).take sub.data.length) == sub.data)

/-! ### Overlay store state

`DtoState` abstracts the on-disk working tree as seen by the dto commands:
* `manifest` — the ordered basenames in the `overlays.txt` enablement file;
* `staged` — overlay blob basenames present in the staged
  (changes-directory) overlays directory;
* `base` — overlay blob basenames in the immutable base-image overlay
  directory;
* `tmpBlob` — number of compiled-overlay temporary files currently present
  in the system temporary directory (`tempfile.NamedTemporaryFile`);
* `tmpDtb` — number of merged-device-tree temporary files in the system
  temporary directory. -/
structure DtoState where
  manifest : List String
  staged : List String
  base : List String
  tmpBlob : Nat
  tmpDtb : Nat
deriving DecidableEq, Repr

/-- A fresh working tree: nothing applied, nothing staged, arbitrary
base-image overlay directory, no leftover temp files. -/
def freshState (base : List String) : DtoState :=
  ⟨[], [], base, 0, 0⟩

/-- Modelled from the spec: `tcbuilder.backend.dto.get_applied_overlays_base_names`
is not in the sources; §4.2 `list_applied` reads the manifest and returns
the ordered basenames (empty if no manifest exists). -/
def get_applied_overlays_base_names (st : DtoState) : List String :=
  st.manifest

/-- `" ".join(names)`. -/
def spaceJoin : List String → String
  | [] => ""
  | [n] => n
  | n :: ns => n ++ " " ++ spaceJoin ns

/-- Serialization of the overlay enablement manifest written by the dto
commands: a single `fdt_overlays=` directive with space-separated
basenames (§6). -/
def serializeOverlaysTxt (names : List String) : String :=
  "fdt_overlays=" ++ spaceJoin names ++ "\n"

/-- Where `find_path_to_overlay` located an overlay blob. -/
inductive BlobLoc where
  | stagedDir
  | baseDir
deriving DecidableEq, Repr

/-- Modelled from the spec: `tcbuilder.backend.dto.find_path_to_overlay`
is not in the sources; §4.2 `find_blob_path` searches the staged overlay
directory first, then the base-image overlay directory, and fails with
NotFound if the blob is absent from both. -/
def find_path_to_overlay (st : DtoState) (basename : String) : Option BlobLoc :=
  if basename ∈ st.staged then some BlobLoc.stagedDir
  else if basename ∈ st.base then some BlobLoc.baseDir
  else none

/-- Errors raised (as `sys.exit(1)` after an error log, or as exceptions)
by the dto commands. -/
inductive DtoError where
  | conflict
  | compileError
  | ambiguousTarget
  | notApplicable
  | notFound
deriving DecidableEq, Repr

/-- Decidable equality for `Except`, so that concrete outcomes can be
checked by `decide`. -/
instance {ε α : Type} [DecidableEq ε] [DecidableEq α] : DecidableEq (Except ε α) :=
  fun a b =>
    match a, b with
    | Except.error e₁, Except.error e₂ =>
      if h : e₁ = e₂ then Decidable.isTrue (by rw [h])
      else Decidable.isFalse (fun hc => h (Except.error.inj hc))
    | Except.error _, Except.ok _ => Decidable.isFalse (fun hc => Except.noConfusion hc)
    | Except.ok _, Except.error _ => Decidable.isFalse (fun hc => Except.noConfusion hc)
    | Except.ok a₁, Except.ok a₂ =>
      if h : a₁ = a₂ then Decidable.isTrue (by rw [h])
      else Decidable.isFalse (fun hc => h (Except.ok.inj hc))

/-- Environment of one `dto_apply` call: outcome of the external device-tree
compiler (`dt.build_dts`), the current device-tree blob of the image with
its exactness flag (`dt.get_current_dtb_path`), and the outcome of the
test-apply tool (`dto.modify_dtb_by_overlays`) as a predicate on the
device-tree path and the ordered overlay names applied over it. -/
structure ApplyEnv where
  compileOk : Bool
  currentDtb : String × Bool
  testOk : String → List String → Bool

/-- Result of one `dto_apply` call: the working-tree state afterwards, the
outcome, and the device-tree blob path the overlay chain was test-applied
against (if the test-apply step was reached). -/
structure ApplyResult where
  state : DtoState
  outcome : Except DtoError Unit
  testedDtb : Option String

/-- Target basename of the compiled overlay:
`os.path.splitext(os.path.basename(dtos_path))[0] + ".dtbo"`
(dto.py line 57). -/
def dtobTargetBasename (dtos_path : String) : String :=
  splitextRoot (posixBasename dtos_path) ++ ".dtbo"

/-- Success tail of `dto_apply` (dto.py lines 108-121): move the compiled
temp blob into the staged overlays directory (overwriting a blob of the
same name) and write the new manifest with the target basename appended. -/
def dtoApplyFinish (st : DtoState) (applied : List String) (target : String)
    (tested : Option String) : ApplyResult :=
  ⟨{ st with
      staged := if target ∈ st.staged then st.staged else st.staged ++ [target],
      tmpBlob := st.tmpBlob - 1,
      manifest := applied ++ [target] },
   Except.ok (), tested⟩

/-- Test-apply step of `dto_apply` (dto.py lines 97-106): create a temp
file for the merged device tree, run the test-apply tool on the chain of
already-applied overlays plus the new one, and either fail with
NotApplicable or proceed to the success tail. -/
def dtoApplyTestAndFinish (st : DtoState) (env : ApplyEnv)
    (applied : List String) (target : String) (dtbPath : String) : ApplyResult :=
  let st2 : DtoState := { st with tmpDtb := st.tmpDtb + 1 }
  if env.testOk dtbPath (applied ++ [target]) = true then
    dtoApplyFinish st2 applied target (some dtbPath)
  else
    ⟨st2, Except.error DtoError.notApplicable, some dtbPath⟩

/-- `dto_apply` of dto.py (lines 36-124), for a working tree satisfying the
unpack / non-WIC precondition. -/
def dto_apply (st : DtoState) (env : ApplyEnv) (dtos_path : String)
    (dtb_arg : Option String) (allow_reapply test_apply : Bool) : ApplyResult :=
  let applied0 := st.manifest
  let target := dtobTargetBasename dtos_path
  if allow_reapply = false ∧ target ∈ applied0 then
    ⟨st, Except.error DtoError.conflict, none⟩
  else
    let applied := if target ∈ applied0 then applied0.erase target else applied0
    let st1 : DtoState := { st with tmpBlob := st.tmpBlob + 1 }
    if env.compileOk = false then
      ⟨st1, Except.error DtoError.compileError, none⟩
    else if test_apply then
      match dtb_arg with
      | some arg =>
        dtoApplyTestAndFinish st1 env applied target
          (pjoin (pdirname env.currentDtb.1) arg)
      | none =>
        if env.currentDtb.2 = false then
          ⟨st1, Except.error DtoError.ambiguousTarget, none⟩
        else
          dtoApplyTestAndFinish st1 env applied target env.currentDtb.1
    else
      dtoApplyFinish st1 applied target none

/-- `dto_remove_single` of dto.py (lines 285-318), for a working tree
satisfying the unpack / non-WIC precondition. -/
def dto_remove_single (st : DtoState) (dtob_basename : String)
    (presence_required : Bool) : DtoState × Except DtoError Bool :=
  if dtob_basename ∉ st.manifest then
    if presence_required then (st, Except.error DtoError.notFound)
    else (st, Except.ok false)
  else
    let st1 : DtoState := { st with manifest := st.manifest.erase dtob_basename }
    match find_path_to_overlay st1 dtob_basename with
    | some BlobLoc.stagedDir =>
      ({ st1 with staged := st1.staged.erase dtob_basename }, Except.ok true)
    | some BlobLoc.baseDir => (st1, Except.ok true)
    | none => (st1, Except.error DtoError.notFound)

/-- Result of `dto_remove_all`: the state afterwards and whether the final
defensive assertion (`assert not dto.get_applied_overlays_base_names(...)`)
holds. -/
structure RemoveAllResult where
  state : DtoState
  assertionOk : Bool
deriving Repr

/-- `dto_remove_all` of dto.py (lines 321-346): write an empty manifest
directive, recursively delete the staged overlays directory, and assert
that the applied list reads back empty. -/
def dto_remove_all (st : DtoState) : RemoveAllResult :=
  let st1 : DtoState := { st with manifest := [], staged := [] }
  ⟨st1, (get_applied_overlays_base_names st1).isEmpty⟩

/-- One operation of the dto state machine, with the environment of the
call. -/
inductive DtoOp where
  | apply (env : ApplyEnv) (dtos_path : String) (dtb_arg : Option String)
      (allow_reapply test_apply : Bool)
  | removeSingle (dtob_basename : String) (presence_required : Bool)
  | removeAll

/-- Resulting working-tree state of one dto operation. -/
def dtoStep (st : DtoState) : DtoOp → DtoState
  | DtoOp.apply env p d ar ta => (dto_apply st env p d ar ta).state
  | DtoOp.removeSingle b pr => (dto_remove_single st b pr).1
  | DtoOp.removeAll => (dto_remove_all st).state

/-- Two duplicate-free name lists with the same members. -/
def ConsistentLists (m s : List String) : Prop :=
  m.Nodup ∧ s.Nodup ∧ ∀ x, x ∈ m ↔ x ∈ s

/-- The consistency invariant of the overlay store: the manifest and the
staged blob directory are duplicate-free and list exactly the same
basenames. -/
def ManifestStagedConsistent (st : DtoState) : Prop :=
  ConsistentLists st.manifest st.staged

/-! ### Hostname resolution (`tcbuilder/backend/common.py`, lines 155-198)

`resolve_hostname` is embedded with its two external name services as
parameters: `dns` is the operating-system resolver
(`socket.gethostbyname`, `none` standing for a raised `gaierror`) and
`mdns` is the multicast resolver (`dns.resolver.Resolver.query`), which
either returns a (possibly empty) list of address records or times out.
The outcome records every multicast query issued, with the exact
parameters the code passes. -/

/-- One multicast-DNS query as configured by `resolve_hostname`:
nameserver list, port, queried name, record type, lifetime and optional
source interface. -/
structure MdnsQuery where
  nameserver : String
  port : Nat
  qname : String
  rdtype : String
  lifetime : Nat
  source : Option String
deriving DecidableEq, Repr

/-- Response of the multicast resolver: a list of address records, or a
timeout (`dns.exception.Timeout`). -/
inductive MdnsResp where
  | answers (addrs : List String)
  | timeout
deriving DecidableEq, Repr

/-- Result of `resolve_hostname`: the returned `(ip, used_mdns)` pair, or
the message of the raised `TorizonCoreBuilderError`. -/
inductive ResolveResult where
  | ok (addr : String) (usedMdns : Bool)
  | err (msg : String)
deriving DecidableEq, Repr

/-- Result together with the multicast queries that were issued. -/
structure ResolveOutcome where
  result : ResolveResult
  queries : List MdnsQuery
deriving DecidableEq, Repr

/-- Normalization to the mDNS name: append `".local"` unless the hostname
already ends with it (common.py lines 180-183). -/
def mdnsHostnameOf (hostname : String) : String :=
  if strEndsWith hostname ".local" = true then hostname else hostname ++ ".local"

/-- The multicast query built by `resolve_hostname` (common.py lines
185-190): nameservers `["224.0.0.251"]`, port 5353, record type `"A"`,
lifetime 3, optional source interface. -/
def mdnsQueryOf (hostname : String) (mdns_source : Option String) : MdnsQuery :=
  ⟨"224.0.0.251", 5353, mdnsHostnameOf hostname, "A", 3, mdns_source⟩

/-- `resolve_hostname` of common.py (lines 155-198). -/
def resolve_hostname (dns : String → Option String) (mdns : MdnsQuery → MdnsResp)
    (hostname : String) (mdns_source : Option String) : ResolveOutcome :=
  match dns hostname with
  | some ip => ⟨ResolveResult.ok ip false, []⟩
  | none =>
    if strEndsWith hostname ".local" = false ∧ strContainsChar hostname '.' = true then
      ⟨ResolveResult.err ("Resolving hostname \"" ++ hostname ++ "\" failed."), []⟩
    else
      let q := mdnsQueryOf hostname mdns_source
      match mdns q with
      | MdnsResp.answers [] =>
        ⟨ResolveResult.err "Resolving mDNS address failed with no answer", [q]⟩
      | MdnsResp.answers (a :: _) => ⟨ResolveResult.ok a true, [q]⟩
      | MdnsResp.timeout =>
        ⟨ResolveResult.err
          ("Resolving hostname \"" ++ mdnsHostnameOf hostname ++ "\" using mDNS failed."),
         [q]⟩

/-! ### Kernel version discovery (`tcbuilder/backend/ostree.py`, lines 317-347)

The repository at a given commit is abstracted by the listing function
`lsF`, standing for `ls(repo, path, commit)`: it maps an absolute path to
the entries (name and file type) under it. -/

/-- One entry returned by `ls`: name and Gio file type rendered as a
string (`"directory"`, `"regular"`, ...). -/
structure FsEntry where
  name : String
  ftype : String
deriving DecidableEq, Repr

/-- The directory walked by `get_kernel_version`. -/
def modulesDir : String := "/usr/lib/modules"

/-- `get_kernel_version` of ostree.py (lines 317-347): among the directory
entries of `/usr/lib/modules`, return the name of the first one whose own
listing contains an entry named `vmlinuz`; `""` if none does. -/
def get_kernel_version (lsF : String → List FsEntry) : String :=
  let module_files := lsF modulesDir
  let module_dirs := module_files.filter (fun f => f.ftype == "directory")
  match module_dirs.find?
      (fun d => (lsF (modulesDir ++ "/" ++ d.name)).any (fun f => f.name == "vmlinuz")) with
  | some d => d.name
  | none => ""

/-- Listing fixture for the kernel-discovery witness: one module directory
holding a kernel image. -/
def kvFixture : String → List FsEntry := fun p =>
  if p = "/usr/lib/modules" then [⟨"5.4.77-rt", "directory"⟩]
  else if p = "/usr/lib/modules/5.4.77-rt" then [⟨"vmlinuz", "regular"⟩]
  else []

example : dtobTargetBasename "device-trees/overlays/ov_sample.dts" = "ov_sample.dtbo" := by
  decide

example : pdirname "/storage/dt/imx8.dtb" = "/storage/dt" := by decide

example : pjoin "/storage/dt" "other.dtb" = "/storage/dt/other.dtb" := by decide

example : pjoin "/storage/dt" "/elsewhere/other.dtb" = "/elsewhere/other.dtb" := by
  decide

example : serializeOverlaysTxt [] = "fdt_overlays=\n" := by decide

example : serializeOverlaysTxt ["a.dtbo", "b.dtbo"] = "fdt_overlays=a.dtbo b.dtbo\n" := by
  decide

example : strContainsSub "Resolving mDNS address failed with no answer" "device.local" = false := by
  decide

example : strEndsWith "device.local" ".local" = true := by decide

example : strEndsWith "badhost.example.com" ".local" = false := by decide

example :
    (dto_apply (freshState []) ⟨true, ("/dt/imx8.dtb", true), fun _ _ => false⟩
      "ov.dts" none false true).outcome = Except.error DtoError.notApplicable := by
  decide

example :
    (dto_apply (freshState []) ⟨true, ("/dt/imx8.dtb", true), fun _ _ => false⟩
      "ov.dts" none false true).state.tmpBlob = 1 := by
  decide

example :
    (dto_apply (freshState []) ⟨true, ("/dt/imx8.dtb", true), fun _ _ => true⟩
      "ov.dts" none false true).state.manifest = ["ov.dtbo"] := by
  decide

example :
    (resolve_hostname (fun _ => none) (fun _ => MdnsResp.answers ["192.168.1.5"])
      "device" none).result = ResolveResult.ok "192.168.1.5" true := by
  decide

example :
    (resolve_hostname (fun _ => none) (fun _ => MdnsResp.timeout)
      "badhost.example.com" none).queries = [] := by
  decide

example :
    get_kernel_version
      (fun p =>
        if p = "/usr/lib/modules" then [⟨"5.4.77-rt", "directory"⟩]
        else if p = "/usr/lib/modules/5.4.77-rt" then [⟨"vmlinuz", "regular"⟩]
        else []) = "5.4.77-rt" := by
  decide

/-! ### Characterization lemmas for `dto_apply` -/

/-- A redundant application without reapply permission stops at the
Conflict check with the working tree untouched. -/
lemma dto_apply_eq_conflict (st : DtoState) (env : ApplyEnv) (p : String)
    (d : Option String) (ar ta : Bool)
    (hc : ar = false ∧ dtobTargetBasename p ∈ st.manifest) :
    dto_apply st env p d ar ta = ⟨st, Except.error DtoError.conflict, none⟩ := by
  simp only [dto_apply]
  rw [if_pos hc]

lemma dto_apply_eq_compileErr (st : DtoState) (env : ApplyEnv) (p : String)
    (d : Option String) (ar ta : Bool)
    (hc : ¬(ar = false ∧ dtobTargetBasename p ∈ st.manifest))
    (hk : env.compileOk = false) :
    dto_apply st env p d ar ta
      = ⟨{ st with tmpBlob := st.tmpBlob + 1 }, Except.error DtoError.compileError,
         none⟩ := by
  simp only [dto_apply]
  rw [if_neg hc, if_pos hk]

lemma dto_apply_eq_noTest (st : DtoState) (env : ApplyEnv) (p : String)
    (d : Option String) (ar : Bool)
    (hc : ¬(ar = false ∧ dtobTargetBasename p ∈ st.manifest))
    (hk : env.compileOk = true) :
    dto_apply st env p d ar false
      = dtoApplyFinish { st with tmpBlob := st.tmpBlob + 1 }
          (if dtobTargetBasename p ∈ st.manifest
            then st.manifest.erase (dtobTargetBasename p) else st.manifest)
          (dtobTargetBasename p) none := by
  simp only [dto_apply]
  rw [if_neg hc, if_neg (by simp [hk]), if_neg (by simp)]

lemma dto_apply_eq_testArg (st : DtoState) (env : ApplyEnv) (p arg : String)
    (ar : Bool)
    (hc : ¬(ar = false ∧ dtobTargetBasename p ∈ st.manifest))
    (hk : env.compileOk = true) :
    dto_apply st env p (some arg) ar true
      = dtoApplyTestAndFinish { st with tmpBlob := st.tmpBlob + 1 } env
          (if dtobTargetBasename p ∈ st.manifest
            then st.manifest.erase (dtobTargetBasename p) else st.manifest)
          (dtobTargetBasename p) (pjoin (pdirname env.currentDtb.1) arg) := by
  simp only [dto_apply]
  rw [if_neg hc, if_neg (by simp [hk]), if_pos (by simp)]

lemma dto_apply_eq_ambiguous (st : DtoState) (env : ApplyEnv) (p : String)
    (ar : Bool)
    (hc : ¬(ar = false ∧ dtobTargetBasename p ∈ st.manifest))
    (hk : env.compileOk = true)
    (hex : env.currentDtb.2 = false) :
    dto_apply st env p none ar true
      = ⟨{ st with tmpBlob := st.tmpBlob + 1 }, Except.error DtoError.ambiguousTarget,
         none⟩ := by
  simp only [dto_apply]
  rw [if_neg hc, if_neg (by simp [hk]), if_pos (by simp)]
  simp [hex]

lemma dto_apply_eq_testCur (st : DtoState) (env : ApplyEnv) (p : String)
    (ar : Bool)
    (hc : ¬(ar = false ∧ dtobTargetBasename p ∈ st.manifest))
    (hk : env.compileOk = true)
    (hex : env.currentDtb.2 = true) :
    dto_apply st env p none ar true
      = dtoApplyTestAndFinish { st with tmpBlob := st.tmpBlob + 1 } env
          (if dtobTargetBasename p ∈ st.manifest
            then st.manifest.erase (dtobTargetBasename p) else st.manifest)
          (dtobTargetBasename p) env.currentDtb.1 := by
  simp only [dto_apply]
  rw [if_neg hc, if_neg (by simp [hk]), if_pos (by simp)]
  simp [hex]

/-! ### Preservation of the manifest/staged consistency invariant -/

/-- Erasing the target if present, then appending it, and inserting the
blob if absent, keeps the manifest and the staged directory consistent. -/
lemma consistentLists_apply (m s : List String) (t : String)
    (h : ConsistentLists m s) :
    ConsistentLists ((if t ∈ m then m.erase t else m) ++ [t])
      (if t ∈ s then s else s ++ [t]) := by
  obtain ⟨hm, hs, hiff⟩ := h
  have he : (if t ∈ m then m.erase t else m) = m.erase t := by
    split
    · rfl
    · exact (List.erase_of_not_mem (by assumption)).symm
  rw [he]
  refine ⟨?_, ?_, ?_⟩
  · rw [List.nodup_append]
    refine ⟨hm.erase t, List.nodup_singleton t, fun a ha hb => ?_⟩
    rw [List.mem_singleton] at hb
    subst hb
    exact ((hm.mem_erase_iff).mp ha).1 rfl
  · split
    · exact hs
    · rw [List.nodup_append]
      refine ⟨hs, List.nodup_singleton t, fun a ha hb => ?_⟩
      rw [List.mem_singleton] at hb
      subst hb
      exact absurd ha (by assumption)
  · intro x
    rw [List.mem_append, List.mem_singleton, hm.mem_erase_iff]
    split
    · rename_i hts
      constructor
      · rintro (⟨_, hx⟩ | rfl)
        · exact (hiff x).mp hx
        · exact hts
      · intro hxs
        by_cases hxt : x = t
        · exact Or.inr hxt
        · exact Or.inl ⟨hxt, (hiff x).mpr hxs⟩
    · rename_i hts
      rw [List.mem_append, List.mem_singleton]
      constructor
      · rintro (⟨_, hx⟩ | rfl)
        · exact Or.inl ((hiff x).mp hx)
        · exact Or.inr rfl
      · rintro (hxs | rfl)
        · have hxt : x ≠ t := fun hxt => hts (hxt ▸ hxs)
          exact Or.inl ⟨hxt, (hiff x).mpr hxs⟩
        · exact Or.inr rfl

/-- The success tail of `dto_apply` preserves the store invariant. -/
lemma consistent_dtoApplyFinish (s : DtoState) (t : String) (tested : Option String)
    (h : ManifestStagedConsistent s) :
    ManifestStagedConsistent
      (dtoApplyFinish s
        (if t ∈ s.manifest then s.manifest.erase t else s.manifest) t tested).state := by
  exact consistentLists_apply s.manifest s.staged t h

/-- The test-apply step of `dto_apply` preserves the store invariant. -/
lemma consistent_dtoApplyTestAndFinish (s : DtoState) (env : ApplyEnv) (t pth : String)
    (h : ManifestStagedConsistent s) :
    ManifestStagedConsistent
      (dtoApplyTestAndFinish s env
        (if t ∈ s.manifest then s.manifest.erase t else s.manifest) t pth).state := by
  have h2 := consistentLists_apply s.manifest s.staged t h
  generalize hA : (if t ∈ s.manifest then s.manifest.erase t else s.manifest) = A at h2 ⊢
  unfold dtoApplyTestAndFinish
  split
  · exact h2
  · exact h

/-- One `dto_apply` call preserves the store invariant. -/
lemma consistent_dto_apply (st : DtoState) (env : ApplyEnv) (p : String)
    (d : Option String) (ar ta : Bool)
    (h : ManifestStagedConsistent st) :
    ManifestStagedConsistent (dto_apply st env p d ar ta).state := by
  by_cases hc : ar = false ∧ dtobTargetBasename p ∈ st.manifest
  · rw [dto_apply_eq_conflict st env p d ar ta hc]
    exact h
  · by_cases hk : env.compileOk = false
    · rw [dto_apply_eq_compileErr st env p d ar ta hc hk]
      exact h
    · rw [Bool.not_eq_false] at hk
      have hst1 : ManifestStagedConsistent { st with tmpBlob := st.tmpBlob + 1 } := h
      cases ta with
      | false =>
        rw [dto_apply_eq_noTest st env p d ar hc hk]
        exact consistent_dtoApplyFinish { st with tmpBlob := st.tmpBlob + 1 } _ none hst1
      | true =>
        cases d with
        | some arg =>
          rw [dto_apply_eq_testArg st env p arg ar hc hk]
          exact consistent_dtoApplyTestAndFinish _ env _ _ hst1
        | none =>
          by_cases hex : env.currentDtb.2 = false
          · rw [dto_apply_eq_ambiguous st env p ar hc hk hex]
            exact h
          · rw [Bool.not_eq_false] at hex
            rw [dto_apply_eq_testCur st env p ar hc hk hex]
            exact consistent_dtoApplyTestAndFinish _ env _ _ hst1

/-- One `dto_remove_single` call preserves the store invariant. -/
lemma consistent_dto_remove_single (st : DtoState) (b : String) (pr : Bool)
    (h : ManifestStagedConsistent st) :
    ManifestStagedConsistent (dto_remove_single st b pr).1 := by
  obtain ⟨hm, hs, hiff⟩ := h
  unfold dto_remove_single
  by_cases hb : b ∈ st.manifest
  · rw [if_neg (by simpa using hb)]
    have hbs : b ∈ st.staged := (hiff b).mp hb
    simp only [find_path_to_overlay, if_pos hbs]
    refine ⟨hm.erase b, hs.erase b, fun x => ?_⟩
    rw [hm.mem_erase_iff, hs.mem_erase_iff]
    exact and_congr_right fun _ => hiff x
  · rw [if_pos (by simpa using hb)]
    split
    · exact ⟨hm, hs, hiff⟩
    · exact ⟨hm, hs, hiff⟩

/-- One `dto_remove_all` call preserves (in fact re-establishes) the store
invariant. -/
lemma consistent_dto_remove_all (st : DtoState) :
    ManifestStagedConsistent (dto_remove_all st).state :=
  ⟨List.nodup_nil, List.nodup_nil, fun _ => Iff.rfl⟩

/-- Every dto operation preserves the store invariant. -/
lemma consistent_dtoStep (st : DtoState) (op : DtoOp)
    (h : ManifestStagedConsistent st) :
    ManifestStagedConsistent (dtoStep st op) := by
  cases op with
  | apply env p d ar ta => exact consistent_dto_apply st env p d ar ta h
  | removeSingle b pr => exact consistent_dto_remove_single st b pr h
  | removeAll => exact consistent_dto_remove_all st

/-! ### Outcome lemmas for the success / failure paths of `dto_apply` -/

/-- On a successful test-apply the state is the success-tail state; the
tested device tree is recorded either way. -/
lemma dtoApplyTestAndFinish_ok (s : DtoState) (env : ApplyEnv)
    (applied : List String) (t pth : String)
    (hok : (dtoApplyTestAndFinish s env applied t pth).outcome = Except.ok ()) :
    dtoApplyTestAndFinish s env applied t pth
      = dtoApplyFinish { s with tmpDtb := s.tmpDtb + 1 } applied t (some pth) := by
  unfold dtoApplyTestAndFinish at hok ⊢
  split at hok
  · rw [if_pos (by assumption)]
  · simp only [dtoApplyFinish] at hok
    exact absurd hok (by simp)

/-- On a failing test-apply the result is the NotApplicable error with only
the merged-device-tree temp file added. -/
lemma dtoApplyTestAndFinish_err (s : DtoState) (env : ApplyEnv)
    (applied : List String) (t pth : String) (e : DtoError)
    (he : (dtoApplyTestAndFinish s env applied t pth).outcome = Except.error e) :
    e = DtoError.notApplicable
    ∧ dtoApplyTestAndFinish s env applied t pth
      = ⟨{ s with tmpDtb := s.tmpDtb + 1 }, Except.error DtoError.notApplicable,
         some pth⟩ := by
  unfold dtoApplyTestAndFinish at he ⊢
  split at he
  · simp only [dtoApplyFinish] at he
    exact absurd he (by simp)
  · refine ⟨?_, ?_⟩
    · simpa using he.symm
    · rw [if_neg (by assumption)]

/-- The test-apply step always records the device tree it tested against. -/
lemma dtoApplyTestAndFinish_testedDtb (s : DtoState) (env : ApplyEnv)
    (applied : List String) (t pth : String) :
    (dtoApplyTestAndFinish s env applied t pth).testedDtb = some pth := by
  unfold dtoApplyTestAndFinish
  split
  · rfl
  · rfl

/-- Any successful `dto_apply` ends with the erased-then-appended manifest,
the target blob inserted in the staged directory, and the base-image
directory untouched. -/
lemma dto_apply_ok_state (st : DtoState) (env : ApplyEnv) (p : String)
    (d : Option String) (ar ta : Bool)
    (hok : (dto_apply st env p d ar ta).outcome = Except.ok ()) :
    (dto_apply st env p d ar ta).state.manifest
      = (if dtobTargetBasename p ∈ st.manifest
          then st.manifest.erase (dtobTargetBasename p) else st.manifest)
        ++ [dtobTargetBasename p]
    ∧ (dto_apply st env p d ar ta).state.staged
      = (if dtobTargetBasename p ∈ st.staged then st.staged
          else st.staged ++ [dtobTargetBasename p])
    ∧ (dto_apply st env p d ar ta).state.base = st.base := by
  by_cases hc : ar = false ∧ dtobTargetBasename p ∈ st.manifest
  · rw [dto_apply_eq_conflict st env p d ar ta hc] at hok
    exact absurd hok (by simp)
  · by_cases hk : env.compileOk = false
    · rw [dto_apply_eq_compileErr st env p d ar ta hc hk] at hok
      exact absurd hok (by simp)
    · rw [Bool.not_eq_false] at hk
      cases ta with
      | false =>
        rw [dto_apply_eq_noTest st env p d ar hc hk]
        exact ⟨rfl, rfl, rfl⟩
      | true =>
        cases d with
        | some arg =>
          rw [dto_apply_eq_testArg st env p arg ar hc hk] at hok ⊢
          rw [dtoApplyTestAndFinish_ok _ _ _ _ _ hok]
          exact ⟨rfl, rfl, rfl⟩
        | none =>
          by_cases hex : env.currentDtb.2 = false
          · rw [dto_apply_eq_ambiguous st env p ar hc hk hex] at hok
            exact absurd hok (by simp)
          · rw [Bool.not_eq_false] at hex
            rw [dto_apply_eq_testCur st env p ar hc hk hex] at hok ⊢
            rw [dtoApplyTestAndFinish_ok _ _ _ _ _ hok]
            exact ⟨rfl, rfl, rfl⟩

/-! ### Lemmas about `pjoin` and substring containment -/

/-- A string contains any middle factor of an append. -/
lemma strContainsSub_append (a m b : String) :
    strContainsSub (a ++ m ++ b) m = true := by
  unfold strContainsSub
  rw [List.any_eq_true]
  refine ⟨a.data.length, ?_, ?_⟩
  · rw [List.mem_range]
    have hlen : (a ++ m ++ b).data.length
        = a.data.length + m.data.length + b.data.length := by
      simp [String.data_append]
      omega
    omega
  · have hdata : (a ++ m ++ b).data = a.data ++ (m.data ++ b.data) := by
      simp [String.data_append]
    rw [hdata, List.drop_left, List.take_left]
    exact beq_self_eq_true m.data

/-- For a relative second component and a slash-free tail of the first,
`pjoin` inserts exactly one separator. -/
lemma pjoin_relative (a b : String) (hb : strStartsWith b "/" = false)
    (ha : a ≠ "") (ha2 : strEndsWith a "/" = false) :
    pjoin a b = a ++ "/" ++ b := by
  unfold pjoin
  rw [if_neg (by simp [hb]), if_neg (by simp [ha, ha2])]

/-- An absolute second component makes `pjoin` discard the first. -/
lemma pjoin_absolute (a b : String) (hb : strStartsWith b "/" = true) :
    pjoin a b = b := by
  unfold pjoin
  rw [if_pos hb]

/-! ### Claim theorems -/

/-- Claim C1: for every sequence of overlay apply and remove operations
started on a fresh working tree, the set of basenames listed in the
overlays manifest equals the set of overlay blob files present in the
staged overlays directory after each operation completes (quantifying over
all operation sequences covers every intermediate state). -/
theorem dto_manifest_matches_staged_blobs (base : List String) (ops : List DtoOp) :
    ManifestStagedConsistent (ops.foldl dtoStep (freshState base)) := by
  induction ops using List.reverseRecOn with
  | nil => exact ⟨List.nodup_nil, List.nodup_nil, fun _ => Iff.rfl⟩
  | append_singleton l op ih =>
    rw [List.foldl_append, List.foldl_cons, List.foldl_nil]
    exact consistent_dtoStep _ op ih

/-- Claim C2: when apply is called with reapply allowed on a source whose
target basename is already applied, a successful reapply removes the old
entry before appending, so the basename occurs exactly once, at the end of
the manifest (replace, not stack). -/
theorem dto_apply_reapply_replaces (st : DtoState) (env : ApplyEnv) (p : String)
    (d : Option String) (ta : Bool)
    (hnd : st.manifest.Nodup)
    (hmem : dtobTargetBasename p ∈ st.manifest)
    (hok : (dto_apply st env p d true ta).outcome = Except.ok ()) :
    (dto_apply st env p d true ta).state.manifest
      = st.manifest.erase (dtobTargetBasename p) ++ [dtobTargetBasename p]
    ∧ (dto_apply st env p d true ta).state.manifest.count (dtobTargetBasename p) = 1
    ∧ (dto_apply st env p d true ta).state.manifest.getLast?
      = some (dtobTargetBasename p) := by
  obtain ⟨hman, -, -⟩ := dto_apply_ok_state st env p d true ta hok
  rw [if_pos hmem] at hman
  have hnotm : dtobTargetBasename p ∉ st.manifest.erase (dtobTargetBasename p) :=
    fun hx => (hnd.mem_erase_iff.mp hx).1 rfl
  refine ⟨hman, ?_, ?_⟩
  · rw [hman, List.count_append, List.count_eq_zero.mpr hnotm]
    simp
  · rw [hman, List.getLast?_concat]

theorem dto_apply_reapply_replaces_witness :
    (dto_apply ⟨["ov.dtbo"], ["ov.dtbo"], [], 0, 0⟩
        ⟨true, ("/storage/dt/imx8.dtb", true), fun _ _ => true⟩
        "ov.dts" none true false).state.manifest = ["ov.dtbo"]
    ∧ (dto_apply ⟨["ov.dtbo"], ["ov.dtbo"], [], 0, 0⟩
        ⟨true, ("/storage/dt/imx8.dtb", true), fun _ _ => true⟩
        "ov.dts" none true false).state.manifest.count "ov.dtbo" = 1
    ∧ (dto_apply ⟨["ov.dtbo"], ["ov.dtbo"], [], 0, 0⟩
        ⟨true, ("/storage/dt/imx8.dtb", true), fun _ _ => true⟩
        "ov.dts" none true false).state.manifest.getLast? = some "ov.dtbo" := by
  have h := dto_apply_reapply_replaces ⟨["ov.dtbo"], ["ov.dtbo"], [], 0, 0⟩
      ⟨true, ("/storage/dt/imx8.dtb", true), fun _ _ => true⟩ "ov.dts" none false
      (by decide) (by decide) (by decide)
  have ht : dtobTargetBasename "ov.dts" = "ov.dtbo" := by decide
  rw [ht] at h
  exact ⟨h.1.trans (by decide), h.2.1, h.2.2⟩

/-- Claim C3: applying an overlay whose target basename is already in the
applied list, with reapply disallowed, fails with the duplicate-overlay
Conflict error and returns the working tree byte-for-byte unchanged. -/
theorem dto_apply_duplicate_conflict (st : DtoState) (env : ApplyEnv) (p : String)
    (d : Option String) (ta : Bool)
    (hmem : dtobTargetBasename p ∈ st.manifest) :
    dto_apply st env p d false ta = ⟨st, Except.error DtoError.conflict, none⟩ :=
  dto_apply_eq_conflict st env p d false ta ⟨rfl, hmem⟩

theorem dto_apply_duplicate_conflict_witness :
    dto_apply ⟨["ov.dtbo"], ["ov.dtbo"], [], 0, 0⟩
        ⟨true, ("/storage/dt/imx8.dtb", true), fun _ _ => true⟩ "ov.dts" none false true
      = ⟨⟨["ov.dtbo"], ["ov.dtbo"], [], 0, 0⟩, Except.error DtoError.conflict, none⟩ :=
  dto_apply_duplicate_conflict ⟨["ov.dtbo"], ["ov.dtbo"], [], 0, 0⟩
    ⟨true, ("/storage/dt/imx8.dtb", true), fun _ _ => true⟩ "ov.dts" none true
    (by decide)

/-- Claim C4, counterexample: a failure after compilation (NotApplicable
from the test-apply chain) leaves the compiled temporary blob in the
temporary directory (`tmpBlob = 1` instead of the `0` a cleanup would
give); the claim that the temp blob is cleaned up is false on the code. -/
theorem dto_apply_tmp_blob_left_counterexample :
    (dto_apply (freshState []) ⟨true, ("/storage/dt/imx8.dtb", true), fun _ _ => false⟩
        "ov.dts" none false true).outcome = Except.error DtoError.notApplicable
    ∧ (dto_apply (freshState []) ⟨true, ("/storage/dt/imx8.dtb", true), fun _ _ => false⟩
        "ov.dts" none false true).state.tmpBlob = 1 := by
  decide

/-- Claim C4, amended: whenever apply fails after the overlay was compiled
(any error other than the pre-compilation Conflict), no blob is left in the
target overlay directory, the manifest retains its prior state, the
base-image directory is untouched — but the compiled temporary blob is NOT
cleaned up: it remains at its temporary path. -/
theorem dto_apply_failure_after_compile (st : DtoState) (env : ApplyEnv) (p : String)
    (d : Option String) (ar ta : Bool) (e : DtoError)
    (hk : env.compileOk = true)
    (he : (dto_apply st env p d ar ta).outcome = Except.error e)
    (hne : e ≠ DtoError.conflict) :
    (dto_apply st env p d ar ta).state.manifest = st.manifest
    ∧ (dto_apply st env p d ar ta).state.staged = st.staged
    ∧ (dto_apply st env p d ar ta).state.base = st.base
    ∧ (dto_apply st env p d ar ta).state.tmpBlob = st.tmpBlob + 1 := by
  by_cases hc : ar = false ∧ dtobTargetBasename p ∈ st.manifest
  · rw [dto_apply_eq_conflict st env p d ar ta hc] at he
    simp only [Except.error.injEq] at he
    exact absurd he.symm hne
  · by_cases hk2 : env.compileOk = false
    · rw [hk] at hk2
      exact absurd hk2 (by simp)
    · cases ta with
      | false =>
        rw [dto_apply_eq_noTest st env p d ar hc hk] at he
        simp only [dtoApplyFinish] at he
        exact absurd he (by simp)
      | true =>
        cases d with
        | some arg =>
          rw [dto_apply_eq_testArg st env p arg ar hc hk] at he ⊢
          obtain ⟨-, heq⟩ := dtoApplyTestAndFinish_err _ _ _ _ _ _ he
          rw [heq]
          exact ⟨rfl, rfl, rfl, rfl⟩
        | none =>
          by_cases hex : env.currentDtb.2 = false
          · rw [dto_apply_eq_ambiguous st env p ar hc hk hex]
            exact ⟨rfl, rfl, rfl, rfl⟩
          · rw [Bool.not_eq_false] at hex
            rw [dto_apply_eq_testCur st env p ar hc hk hex] at he ⊢
            obtain ⟨-, heq⟩ := dtoApplyTestAndFinish_err _ _ _ _ _ _ he
            rw [heq]
            exact ⟨rfl, rfl, rfl, rfl⟩

theorem dto_apply_failure_after_compile_witness :
    (dto_apply (freshState ["x.dtbo"])
        ⟨true, ("/storage/dt/imx8.dtb", true), fun _ _ => false⟩
        "ov.dts" none false true).state.manifest = []
    ∧ (dto_apply (freshState ["x.dtbo"])
        ⟨true, ("/storage/dt/imx8.dtb", true), fun _ _ => false⟩
        "ov.dts" none false true).state.staged = []
    ∧ (dto_apply (freshState ["x.dtbo"])
        ⟨true, ("/storage/dt/imx8.dtb", true), fun _ _ => false⟩
        "ov.dts" none false true).state.base = ["x.dtbo"]
    ∧ (dto_apply (freshState ["x.dtbo"])
        ⟨true, ("/storage/dt/imx8.dtb", true), fun _ _ => false⟩
        "ov.dts" none false true).state.tmpBlob = 0 + 1 := by
  have h := dto_apply_failure_after_compile (freshState ["x.dtbo"])
      ⟨true, ("/storage/dt/imx8.dtb", true), fun _ _ => false⟩
      "ov.dts" none false true DtoError.notApplicable rfl (by decide) (by decide)
  exact h

/-- Claim C7: remove-all writes the empty but valid manifest directive,
deletes all staged overlay blobs, leaves the base image untouched, and its
defensive postcondition assertion (applied list reads back empty) holds. -/
theorem dto_remove_all_resets_store (st : DtoState) :
    (dto_remove_all st).state.manifest = []
    ∧ (dto_remove_all st).state.staged = []
    ∧ (dto_remove_all st).state.base = st.base
    ∧ (dto_remove_all st).assertionOk = true
    ∧ serializeOverlaysTxt (dto_remove_all st).state.manifest = "fdt_overlays=\n" :=
  ⟨rfl, rfl, rfl, rfl, (by decide : serializeOverlaysTxt [] = "fdt_overlays=\n")⟩

/-- Claim C8: remove-one of an absent basename fails with NotFound when
presence is required and is a no-op success otherwise; when present, the
basename leaves the applied list, and the blob is deleted only when it
lives in the staged overlays directory — the base-image directory is never
touched. -/
theorem dto_remove_single_frame (st : DtoState) (b : String) (pr : Bool) :
    (b ∉ st.manifest → pr = true →
      dto_remove_single st b pr = (st, Except.error DtoError.notFound))
    ∧ (b ∉ st.manifest → pr = false →
      dto_remove_single st b pr = (st, Except.ok false))
    ∧ (b ∈ st.manifest →
      (dto_remove_single st b pr).1.manifest = st.manifest.erase b
      ∧ (dto_remove_single st b pr).1.base = st.base)
    ∧ (b ∈ st.manifest → b ∈ st.staged →
      (dto_remove_single st b pr).1.staged = st.staged.erase b
      ∧ (dto_remove_single st b pr).2 = Except.ok true)
    ∧ (b ∈ st.manifest → b ∉ st.staged →
      (dto_remove_single st b pr).1.staged = st.staged) := by
  refine ⟨?_, ?_, ?_, ?_, ?_⟩
  · intro hnm hpr
    subst hpr
    simp [dto_remove_single, hnm]
  · intro hnm hpr
    subst hpr
    simp [dto_remove_single, hnm]
  · intro hm
    unfold dto_remove_single
    rw [if_neg (by simpa using hm)]
    constructor
    · dsimp only
      split <;> rfl
    · dsimp only
      split <;> rfl
  · intro hm hs
    unfold dto_remove_single
    rw [if_neg (by simpa using hm)]
    have hfind : find_path_to_overlay { st with manifest := st.manifest.erase b } b
        = some BlobLoc.stagedDir := by
      simp [find_path_to_overlay, hs]
    dsimp only
    rw [hfind]
    exact ⟨rfl, rfl⟩
  · intro hm hs
    unfold dto_remove_single
    rw [if_neg (by simpa using hm)]
    have hfind : find_path_to_overlay { st with manifest := st.manifest.erase b } b
        = if b ∈ st.base then some BlobLoc.baseDir else none := by
      simp [find_path_to_overlay, hs]
    dsimp only
    rw [hfind]
    by_cases hbase : b ∈ st.base
    · rw [if_pos hbase]
    · rw [if_neg hbase]

theorem dto_remove_single_frame_witness :
    (dto_remove_single ⟨["a.dtbo"], ["a.dtbo"], ["base.dtbo"], 0, 0⟩
        "a.dtbo" true).1.manifest = []
    ∧ (dto_remove_single ⟨["a.dtbo"], ["a.dtbo"], ["base.dtbo"], 0, 0⟩
        "a.dtbo" true).1.staged = []
    ∧ (dto_remove_single ⟨["a.dtbo"], ["a.dtbo"], ["base.dtbo"], 0, 0⟩
        "a.dtbo" true).1.base = ["base.dtbo"]
    ∧ (dto_remove_single ⟨["a.dtbo"], ["a.dtbo"], ["base.dtbo"], 0, 0⟩
        "a.dtbo" true).2 = Except.ok true := by
  obtain ⟨-, -, hc, hd, -⟩ :=
    dto_remove_single_frame ⟨["a.dtbo"], ["a.dtbo"], ["base.dtbo"], 0, 0⟩ "a.dtbo" true
  have hm : "a.dtbo" ∈ (⟨["a.dtbo"], ["a.dtbo"], ["base.dtbo"], 0, 0⟩ : DtoState).manifest := by
    decide
  have hs : "a.dtbo" ∈ (⟨["a.dtbo"], ["a.dtbo"], ["base.dtbo"], 0, 0⟩ : DtoState).staged := by
    decide
  exact ⟨(hc hm).1.trans (by decide), (hd hm hs).1.trans (by decide),
    (hc hm).2, (hd hm hs).2⟩

/-- Claim C9: kernel discovery walks the immediate entries of
`/usr/lib/modules`, and when some directory entry there contains a
`vmlinuz` image, the function returns the name of such a directory
entry. -/
theorem get_kernel_version_selects_vmlinuz_dir (lsF : String → List FsEntry)
    (h : ∃ e, e ∈ (lsF modulesDir).filter (fun f => f.ftype == "directory")
        ∧ (lsF (modulesDir ++ "/" ++ e.name)).any (fun f => f.name == "vmlinuz") = true) :
    ∃ e, e ∈ lsF modulesDir ∧ e.ftype = "directory"
      ∧ (lsF (modulesDir ++ "/" ++ e.name)).any (fun f => f.name == "vmlinuz") = true
      ∧ get_kernel_version lsF = e.name := by
  obtain ⟨e0, he0, hp0⟩ := h
  have hsome : (((lsF modulesDir).filter (fun f => f.ftype == "directory")).find?
      (fun d => (lsF (modulesDir ++ "/" ++ d.name)).any
        (fun f => f.name == "vmlinuz"))).isSome := by
    rw [List.find?_isSome]
    exact ⟨e0, he0, hp0⟩
  obtain ⟨d, hd⟩ := Option.isSome_iff_exists.mp hsome
  have hpd := List.find?_some hd
  have hmemd := List.mem_of_find?_eq_some hd
  rw [List.mem_filter] at hmemd
  refine ⟨d, hmemd.1, by simpa using hmemd.2, hpd, ?_⟩
  simp only [get_kernel_version]
  rw [hd]

theorem get_kernel_version_selects_vmlinuz_dir_witness :
    ∃ e, e ∈ kvFixture modulesDir ∧ e.ftype = "directory"
      ∧ (kvFixture (modulesDir ++ "/" ++ e.name)).any (fun f => f.name == "vmlinuz") = true
      ∧ get_kernel_version kvFixture = e.name :=
  get_kernel_version_selects_vmlinuz_dir kvFixture
    ⟨⟨"5.4.77-rt", "directory"⟩, by decide, by decide⟩

/-- Claim C5: a hostname that fails standard resolution, does not end with
`.local` and contains a dot fails immediately with the resolution error and
never issues a multicast query. -/
theorem resolve_hostname_fqdn_fails_without_mdns (dns : String → Option String)
    (mdns : MdnsQuery → MdnsResp) (hostname : String) (src : Option String)
    (hdns : dns hostname = none)
    (hlocal : strEndsWith hostname ".local" = false)
    (hdot : strContainsChar hostname '.' = true) :
    (resolve_hostname dns mdns hostname src).result
      = ResolveResult.err ("Resolving hostname \"" ++ hostname ++ "\" failed.")
    ∧ (resolve_hostname dns mdns hostname src).queries = [] := by
  simp only [resolve_hostname, hdns]
  rw [if_pos ⟨hlocal, hdot⟩]
  exact ⟨rfl, rfl⟩

theorem resolve_hostname_fqdn_fails_without_mdns_witness :
    (resolve_hostname (fun _ => none) (fun _ => MdnsResp.timeout)
        "badhost.example.com" none).result
      = ResolveResult.err ("Resolving hostname \"" ++ "badhost.example.com" ++ "\" failed.")
    ∧ (resolve_hostname (fun _ => none) (fun _ => MdnsResp.timeout)
        "badhost.example.com" none).queries = [] :=
  resolve_hostname_fqdn_fails_without_mdns (fun _ => none) (fun _ => MdnsResp.timeout)
    "badhost.example.com" none rfl (by decide) (by decide)

/-- When standard resolution fails and the name is mDNS-compatible, the
whole call reduces to the case split on the multicast response. -/
lemma resolve_hostname_mdns_case (dns : String → Option String)
    (mdns : MdnsQuery → MdnsResp) (hostname : String) (src : Option String)
    (hdns : dns hostname = none)
    (hguard : ¬(strEndsWith hostname ".local" = false
        ∧ strContainsChar hostname '.' = true)) :
    resolve_hostname dns mdns hostname src
      = match mdns (mdnsQueryOf hostname src) with
        | MdnsResp.answers [] =>
          ⟨ResolveResult.err "Resolving mDNS address failed with no answer",
           [mdnsQueryOf hostname src]⟩
        | MdnsResp.answers (a :: _) =>
          ⟨ResolveResult.ok a true, [mdnsQueryOf hostname src]⟩
        | MdnsResp.timeout =>
          ⟨ResolveResult.err ("Resolving hostname \"" ++ mdnsHostnameOf hostname
              ++ "\" using mDNS failed."), [mdnsQueryOf hostname src]⟩ := by
  simp only [resolve_hostname, hdns]
  rw [if_neg hguard]

/-- Claim C6, counterexample: on an empty (but answered) multicast
response, the raised error is the fixed no-answer message, which does not
name the attempted multicast hostname. -/
theorem resolve_hostname_empty_answer_misnames_counterexample :
    (resolve_hostname (fun _ => none) (fun _ => MdnsResp.answers [])
        "device" none).result
      = ResolveResult.err "Resolving mDNS address failed with no answer"
    ∧ strContainsSub "Resolving mDNS address failed with no answer"
        (mdnsHostnameOf "device") = false := by
  decide

/-- Claim C6, amended: for a bare or `.local` hostname failing standard
resolution, exactly one multicast query is issued, to nameserver
224.0.0.251 port 5353, record type A, 3-second lifetime, with the given
source interface, for the name normalized by appending `.local` only when
absent; a non-empty answer returns its first address with `used_mdns`
true; a timeout fails with an error naming the attempted multicast
hostname; an empty answer fails with the fixed no-answer error message,
which does not contain the hostname. -/
theorem resolve_hostname_mdns_protocol (dns : String → Option String)
    (mdns : MdnsQuery → MdnsResp) (hostname : String) (src : Option String)
    (hdns : dns hostname = none)
    (hlocal : strEndsWith hostname ".local" = true
        ∨ strContainsChar hostname '.' = false) :
    (resolve_hostname dns mdns hostname src).queries = [mdnsQueryOf hostname src]
    ∧ (mdnsQueryOf hostname src).nameserver = "224.0.0.251"
    ∧ (mdnsQueryOf hostname src).port = 5353
    ∧ (mdnsQueryOf hostname src).rdtype = "A"
    ∧ (mdnsQueryOf hostname src).lifetime = 3
    ∧ (mdnsQueryOf hostname src).source = src
    ∧ (strEndsWith hostname ".local" = true →
        (mdnsQueryOf hostname src).qname = hostname)
    ∧ (strEndsWith hostname ".local" = false →
        (mdnsQueryOf hostname src).qname = hostname ++ ".local")
    ∧ (∀ a as, mdns (mdnsQueryOf hostname src) = MdnsResp.answers (a :: as) →
        (resolve_hostname dns mdns hostname src).result = ResolveResult.ok a true)
    ∧ (mdns (mdnsQueryOf hostname src) = MdnsResp.timeout →
        (resolve_hostname dns mdns hostname src).result
          = ResolveResult.err ("Resolving hostname \"" ++ mdnsHostnameOf hostname
              ++ "\" using mDNS failed.")
        ∧ strContainsSub ("Resolving hostname \"" ++ mdnsHostnameOf hostname
              ++ "\" using mDNS failed.") (mdnsHostnameOf hostname) = true)
    ∧ (mdns (mdnsQueryOf hostname src) = MdnsResp.answers [] →
        (resolve_hostname dns mdns hostname src).result
          = ResolveResult.err "Resolving mDNS address failed with no answer") := by
  have hguard : ¬(strEndsWith hostname ".local" = false
      ∧ strContainsChar hostname '.' = true) := by
    rcases hlocal with h | h
    · intro hx
      rw [h] at hx
      exact absurd hx.1 (by simp)
    · intro hx
      rw [h] at hx
      exact absurd hx.2 (by simp)
  have hcase := resolve_hostname_mdns_case dns mdns hostname src hdns hguard
  refine ⟨?_, rfl, rfl, rfl, rfl, rfl, ?_, ?_, ?_, ?_, ?_⟩
  · rw [hcase]
    rcases hm : mdns (mdnsQueryOf hostname src) with addrs | _
    · cases addrs <;> rfl
    · rfl
  · intro hend
    simp only [mdnsQueryOf, mdnsHostnameOf]
    rw [if_pos hend]
  · intro hend
    simp only [mdnsQueryOf, mdnsHostnameOf]
    rw [if_neg (by simp [hend])]
  · intro a as hm
    rw [hcase, hm]
  · intro hm
    rw [hcase, hm]
    refine ⟨rfl, ?_⟩
    have := strContainsSub_append ("Resolving hostname \"") (mdnsHostnameOf hostname)
      ("\" using mDNS failed.")
    simpa [String.append_assoc] using this
  · intro hm
    rw [hcase, hm]

theorem resolve_hostname_mdns_protocol_witness :
    (resolve_hostname (fun _ => none) (fun _ => MdnsResp.answers ["192.168.1.5"])
        "device" none).queries = [mdnsQueryOf "device" none]
    ∧ (resolve_hostname (fun _ => none) (fun _ => MdnsResp.answers ["192.168.1.5"])
        "device" none).result = ResolveResult.ok "192.168.1.5" true := by
  obtain ⟨hq, -, -, -, -, -, -, -, hans, -, -⟩ :=
    resolve_hostname_mdns_protocol (fun _ => none)
      (fun _ => MdnsResp.answers ["192.168.1.5"]) "device" none rfl (Or.inr (by decide))
  exact ⟨hq, hans "192.168.1.5" [] rfl⟩

/-- Claim C10, counterexample: an absolute `--device-tree` argument is used
as a standalone path — the tested blob is not located in the base image's
device-tree directory. -/
theorem dto_apply_dtb_arg_absolute_counterexample :
    (dto_apply (freshState []) ⟨true, ("/storage/dt/imx8.dtb", true), fun _ _ => true⟩
        "ov.dts" (some "/elsewhere/other.dtb") false true).testedDtb
      = some "/elsewhere/other.dtb"
    ∧ strContainsSub "/elsewhere/other.dtb" (pdirname "/storage/dt/imx8.dtb") = false := by
  decide

/-- Claim C10, amended: with test-apply requested and an explicit
device-tree argument, the tested path is the POSIX join of the directory
of the image's current device-tree blob with the argument: a relative
argument resolves inside that directory, while an absolute argument
overrides the directory and is used as-is. -/
theorem dto_apply_dtb_arg_join_semantics (st : DtoState) (env : ApplyEnv)
    (p arg : String) (ar : Bool)
    (hc : ¬(ar = false ∧ dtobTargetBasename p ∈ st.manifest))
    (hk : env.compileOk = true) :
    (dto_apply st env p (some arg) ar true).testedDtb
      = some (pjoin (pdirname env.currentDtb.1) arg)
    ∧ (strStartsWith arg "/" = false → pdirname env.currentDtb.1 ≠ "" →
        strEndsWith (pdirname env.currentDtb.1) "/" = false →
        pjoin (pdirname env.currentDtb.1) arg
          = pdirname env.currentDtb.1 ++ "/" ++ arg)
    ∧ (strStartsWith arg "/" = true →
        pjoin (pdirname env.currentDtb.1) arg = arg) := by
  refine ⟨?_, fun h1 h2 h3 => pjoin_relative _ _ h1 h2 h3,
    fun h1 => pjoin_absolute _ _ h1⟩
  rw [dto_apply_eq_testArg st env p arg ar hc hk]
  exact dtoApplyTestAndFinish_testedDtb _ _ _ _ _

theorem dto_apply_dtb_arg_join_semantics_witness :
    (dto_apply (freshState []) ⟨true, ("/storage/dt/imx8.dtb", true), fun _ _ => true⟩
        "ov.dts" (some "other.dtb") false true).testedDtb
      = some (pjoin (pdirname "/storage/dt/imx8.dtb") "other.dtb")
    ∧ pjoin (pdirname "/storage/dt/imx8.dtb") "other.dtb"
      = pdirname "/storage/dt/imx8.dtb" ++ "/" ++ "other.dtb" := by
  have h := dto_apply_dtb_arg_join_semantics (freshState [])
      ⟨true, ("/storage/dt/imx8.dtb", true), fun _ _ => true⟩ "ov.dts" "other.dtb" false
      (by decide) rfl
  exact ⟨h.1, h.2.1 (by decide) (by decide) (by decide)⟩

end TcBuilder
